import Mathlib

/-!
Verification of the scheduler-plugins core components against their
natural-language specification.  The Go sources are shallowly embedded:
machine integers become `Int`, Go maps become association lists with
first-match lookup (insertion at the head models map-assignment overwrite),
fallible calls become `Except`/`Option`, and the read-only cluster snapshot
and listers become explicit inputs.
-/

deriving instance DecidableEq for Except

namespace SchedulerPlugins

namespace Coscheduling

/-- Resource quantities keyed by resource name (corev1.ResourceList);
a missing key reads as the zero quantity, as in Go. -/
abbrev ResourceList := List (String × Int)

/-- `nodeResource[name]` : Go map read with zero default. -/
def lookupQuantity (m : ResourceList) (k : String) : Int :=
  match m.find? (fun p => p.1 == k) with
  | some p => p.2
  | none => 0

/-- The inner loop of `CheckClusterResource` (core.go) for one node:
`quant.Sub(nodeResource[name])`, and `delete(resourceRequest, name)` as soon
as the remaining quantity is zero or below (`quant.Sign() <= 0`). -/
def subtractNodeResource (nodeRes : ResourceList) (req : ResourceList) : ResourceList :=
  req.filterMap (fun p =>
    let q := p.2 - lookupQuantity nodeRes p.1
    if q ≤ 0 then none else some (p.1, q))

/-- `CheckClusterResource` (core.go): walk the node list in order; a `none`
node models the `info == nil || info.Node() == nil` skip; each node is
represented by its left-resource list (the result of `util.ResourceList`
applied to `getNodeResource`).  Returns `ok` as soon as the running
requirement becomes empty; when nodes are exhausted the error carries the
remaining unmet quantities (`resource gap: %v`). -/
def CheckClusterResource : List (Option ResourceList) → ResourceList → Except ResourceList Unit
  | [], req => Except.error req
  | none :: rest, req => CheckClusterResource rest req
  | some n :: rest, req =>
    let req1 := subtractNodeResource n req
    if req1.isEmpty then Except.ok () else CheckClusterResource rest req1

/-- The PodGroup fields consumed by the scheduling core
(`pg.Name`, `pg.Namespace`, `pg.Spec.MinMember`, `pg.Spec.MinResources`). -/
structure PodGroup where
  name : String
  pgNamespace : String
  minMember : Int
  minResources : Option ResourceList
  deriving DecidableEq, Repr

/-- `minResources[corev1.ResourcePods] = *podQuantity` : overwrite of the
pods key in the requirement map. -/
def setPodsQuantity (m : ResourceList) (q : Int) : ResourceList :=
  ("pods", q) :: m.filter (fun p => p.1 != "pods")

/-- Membership test in the backed-off gocache (`backedOffPG.Get`). -/
def isBackedOff (cache : List (String × Int)) (name : String) : Bool :=
  cache.any (fun p => p.1 == name)

/-- `BackoffPodGroup` (core.go): a zero duration is a no-op, otherwise the
group name is added to the backed-off cache with the given TTL. -/
def BackoffPodGroup (cache : List (String × Int)) (pgName : String) (backoff : Int) :
    List (String × Int) :=
  if backoff = 0 then cache else (pgName, backoff) :: cache

/-- The environment a call to the gang-scheduling PreFilter observes:
the result of `GetPodGroup`, the two TTL caches, the sibling-pod listing
(only its length is consumed), the node snapshot and the configured
schedule timeout. -/
structure PreFilterInput where
  pgFullName : String
  pg : Option PodGroup
  backedOffPG : List (String × Int)
  siblingPods : Except String Nat
  permittedPG : List String
  nodeInfos : Except String (List (Option ResourceList))
  scheduleTimeout : Int

/-- The distinguishable outcomes of the gang-scheduling PreFilter. -/
inductive CoPreFilterStatus where
  | ok
  | errBackedOff (pgFullName : String)
  | errListPods
  | errNotEnoughSiblings (current : Nat) (minMember : Int)
  | errNodeList
  | errResourceGap (gap : ResourceList)
  deriving DecidableEq, Repr

/-- `PodGroupManager.PreFilter` (core.go).  The second component records the
entry added to the permitted cache (`permittedPG.Add(pgFullName, pgFullName,
*pgMgr.scheduleTimeout)`) on the successful resource-check path. -/
def coschedulingPreFilter (env : PreFilterInput) : CoPreFilterStatus × Option (String × Int) :=
  match env.pg with
  | none => (CoPreFilterStatus.ok, none)
  | some pg =>
    if isBackedOff env.backedOffPG env.pgFullName then
      (CoPreFilterStatus.errBackedOff env.pgFullName, none)
    else
      match env.siblingPods with
      | Except.error _ => (CoPreFilterStatus.errListPods, none)
      | Except.ok npods =>
        if (npods : Int) < pg.minMember then
          (CoPreFilterStatus.errNotEnoughSiblings npods pg.minMember, none)
        else
          match pg.minResources with
          | none => (CoPreFilterStatus.ok, none)
          | some minRes =>
            if env.pgFullName ∈ env.permittedPG then
              (CoPreFilterStatus.ok, none)
            else
              match env.nodeInfos with
              | Except.error _ => (CoPreFilterStatus.errNodeList, none)
              | Except.ok nodes =>
                match CheckClusterResource nodes (setPodsQuantity minRes pg.minMember) with
                | Except.error gap => (CoPreFilterStatus.errResourceGap gap, none)
                | Except.ok _ =>
                  (CoPreFilterStatus.ok, some (env.pgFullName, env.scheduleTimeout))

/-- The pod fields `CalculateAssignedPods` consumes from the snapshot:
PodGroup label, namespace and `Spec.NodeName`. -/
structure PodRef where
  pgLabel : String
  ns : String
  nodeName : String
  deriving DecidableEq, Repr

/-- `CalculateAssignedPods` (core.go): count the pods of the group, in the
namespace, whose node name is set; on a snapshot listing error it logs and
returns 0. -/
def CalculateAssignedPods (nodeInfos : Except String (List (List PodRef)))
    (podGroupName podNamespace : String) : Nat :=
  match nodeInfos with
  | Except.error _ => 0
  | Except.ok infos =>
    infos.foldl (fun count node =>
      count + (node.filter (fun p =>
        p.pgLabel == podGroupName && p.ns == podNamespace && p.nodeName != "")).length) 0

/-- The per-cycle permit state written by `Permit` (core.go). -/
structure PermitState where
  activate : Bool
  deriving DecidableEq, Repr

/-- The `Status` values returned by `Permit`. -/
inductive PermitStatus where
  | podGroupNotSpecified
  | podGroupNotFound
  | success
  | wait
  deriving DecidableEq, Repr

/-- The environment a call to `Permit` observes. -/
structure PermitInput where
  pgFullName : String
  pg : Option PodGroup
  nodeInfos : Except String (List (List PodRef))

/-- `PodGroupManager.Permit` (core.go).  The second component is the
per-cycle permit state written to the cycle state, when any. -/
def Permit (env : PermitInput) : PermitStatus × Option PermitState :=
  if env.pgFullName = "" then (PermitStatus.podGroupNotSpecified, none)
  else
    match env.pg with
    | none => (PermitStatus.podGroupNotFound, none)
    | some pg =>
      let assigned := CalculateAssignedPods env.nodeInfos pg.name pg.pgNamespace
      if (assigned : Int) + 1 ≥ pg.minMember then (PermitStatus.success, none)
      else if assigned = 0 then (PermitStatus.wait, some { activate := true })
      else (PermitStatus.wait, none)

end Coscheduling

namespace NetworkCost

/-- `MaxCost` (networkcost.go): sentinel cost for unknown topology distance. -/
def MaxCost : Int := 100

/-- `SameHostname` (networkcost.go): cost between pods on the same host. -/
def SameHostname : Int := 0

/-- `SameZone` (networkcost.go): cost between hosts of the same zone. -/
def SameZone : Int := 1

/-- `framework.MaxNodeScore` of the scheduler framework. -/
def MaxNodeScore : Int := 100

/-- `framework.MinNodeScore` of the scheduler framework. -/
def MinNodeScore : Int := 0

/-- The key of the per-node cost map: an (origin, destination) pair. -/
structure CostKey where
  origin : String
  destination : String
  deriving DecidableEq, Repr

/-- The per-node cost map.  Go map assignment is modelled by insertion at the
head together with first-match lookup, so a later assignment wins. -/
abbrev CostMap := List (CostKey × Int)

/-- `costMap[key]` : Go two-valued map read. -/
def lookupCost (m : CostMap) (k : CostKey) : Option Int :=
  (m.find? (fun p => p.1 == k)).map (fun p => p.2)

/-- One (destination, cost) entry of a topology origin's cost list. -/
structure CostEntry where
  destination : String
  networkCost : Int
  deriving DecidableEq, Repr

/-- The cost list of one origin inside a topology level. -/
structure OriginInfo where
  origin : String
  costList : List CostEntry
  deriving DecidableEq, Repr

/-- One topology level (region or zone) of a weighting scheme. -/
structure TopologyInfo where
  topologyKey : String
  originList : List OriginInfo
  deriving DecidableEq, Repr

/-- One named cost-weighting scheme of the NetworkTopology CR. -/
structure WeightInfo where
  name : String
  topologyList : List TopologyInfo
  deriving DecidableEq, Repr

/-- The NetworkTopology CR fields consumed (`Spec.Weights`). -/
structure NetworkTopology where
  weights : List WeightInfo
  deriving DecidableEq, Repr

/-- The topology key naming the region level
(`ntv1alpha1.NetworkTopologyRegion`); its exact string is immaterial here. -/
def NetworkTopologyRegion : String := "Region"

/-- The topology key naming the zone level (`ntv1alpha1.NetworkTopologyZone`). -/
def NetworkTopologyZone : String := "Zone"

/-- Modelled from the spec: `FindTopologyKey` of the networkaware util
package (`pkg/networkaware/util`, not under src/) performs a binary search
through the sorted topology list for the given topology key; modelled as
lookup of the matching key's origin list, empty when absent. -/
def FindTopologyKey (topologyList : List TopologyInfo) (key : String) : List OriginInfo :=
  match topologyList.find? (fun t => t.topologyKey == key) with
  | some t => t.originList
  | none => []

/-- Modelled from the spec: `FindOriginCosts` of the networkaware util
package (not under src/) performs a binary search through the sorted origin
list for the given origin; modelled as lookup of the matching origin's cost
list, empty when absent. -/
def FindOriginCosts (originList : List OriginInfo) (origin : String) : List CostEntry :=
  match originList.find? (fun o => o.origin == origin) with
  | some o => o.costList
  | none => []

/-- The inner loops of `populateCostMap` (networkcost.go): add one cost-map
entry per cost of the given origin, keyed (origin, c.Destination). -/
def addOriginCosts (origin : String) (costs : List CostEntry) (costMap : CostMap) : CostMap :=
  costs.foldl
    (fun m c => ({ origin := origin, destination := c.destination }, c.networkCost) :: m)
    costMap

/-- One guarded block of `populateCostMap` (networkcost.go): when the node
has a label for this level, find the level's origin list by topology key,
find the origin's cost list, and add its entries. -/
def addLevelCosts (level origin : String) (w : WeightInfo) (costMap : CostMap) : CostMap :=
  if origin != "" then
    addOriginCosts origin (FindOriginCosts (FindTopologyKey w.topologyList level) origin)
      costMap
  else costMap

/-- The body of `populateCostMap`'s loop over the weights list: skip a
scheme whose name is not the configured one, otherwise add the region costs
of the node's region and then the zone costs of the node's zone. -/
def populateWeight (weightsName region zone : String) (costMap : CostMap)
    (w : WeightInfo) : CostMap :=
  if w.name != weightsName then costMap
  else
    addLevelCosts NetworkTopologyZone zone w
      (addLevelCosts NetworkTopologyRegion region w costMap)

/-- `populateCostMap` (networkcost.go): for each weighting scheme matching
the configured `weightsName`, add the cost entries of the node's own region
(keyed (region, destination)) and of its own zone (keyed (zone,
destination)).  The sorting performed before the binary searches does not
change the looked-up results and is not modelled. -/
def populateCostMap (weightsName : String) (networkTopology : NetworkTopology)
    (region zone : String) : CostMap :=
  networkTopology.weights.foldl (populateWeight weightsName region zone) []

/-- One entry of the scheduled list: an already-allocated AppGroup pod with
its workload selector and assigned hostname. -/
structure ScheduledInfo where
  selector : String
  hostname : String
  deriving DecidableEq, Repr

/-- One dependency of the pod being scheduled: the target workload selector
and the declared maximum tolerable network cost. -/
structure DependenciesInfo where
  selector : String
  maxNetworkCost : Int
  deriving DecidableEq, Repr

/-- Snapshot lookup of a node's (region, zone) labels by hostname
(`SnapshotSharedLister().NodeInfos().Get`); `none` models a lookup error. -/
abbrev NodeLookup := String → Option (String × String)

/-- `checkMaxNetworkCostRequirements` (networkcost.go): count satisfied and
violated dependencies of the node being filtered against the already
allocated pods.  Same host: satisfied.  Allocated node without region and
zone: violated.  Same region and zone: satisfied.  Different zone or region:
compare the cost looked up under the (origin, destination) pair against the
dependency's maximum when an entry exists; when `costOK` is false neither
counter moves.  A snapshot lookup failure aborts with an error. -/
def checkMaxNetworkCostRequirements (lookupN : NodeLookup)
    (scheduledList : List ScheduledInfo) (dependencyList : List DependenciesInfo)
    (nodeName region zone : String) (costMap : CostMap) : Except Unit (Int × Int) :=
  scheduledList.foldlM (fun (acc : Int × Int) podAllocated =>
    if podAllocated.hostname ≠ "" then
      dependencyList.foldlM (fun (acc2 : Int × Int) d =>
        if podAllocated.selector ≠ d.selector then pure acc2
        else if podAllocated.hostname = nodeName then pure (acc2.1 + 1, acc2.2)
        else
          match lookupN podAllocated.hostname with
          | none => Except.error ()
          | some (regionP, zoneP) =>
            if regionP = "" ∧ zoneP = "" then pure (acc2.1, acc2.2 + 1)
            else if region = regionP then
              if zone = zoneP then pure (acc2.1 + 1, acc2.2)
              else
                match lookupCost costMap { origin := zone, destination := zoneP } with
                | some cost =>
                  if cost ≤ d.maxNetworkCost then pure (acc2.1 + 1, acc2.2)
                  else pure (acc2.1, acc2.2 + 1)
                | none => pure acc2
            else
              match lookupCost costMap { origin := region, destination := regionP } with
              | some cost =>
                if cost ≤ d.maxNetworkCost then pure (acc2.1 + 1, acc2.2)
                else pure (acc2.1, acc2.2 + 1)
              | none => pure acc2) acc
    else pure acc) ((0 : Int), (0 : Int))

/-- `getAccumulatedCost` (networkcost.go): accumulate, over every
(allocated pod, dependency) pair with matching selector, the fixed same-host
or same-zone constants, the looked-up (origin, destination) cost, or the
`MaxCost` sentinel when the allocated node lacks region and zone labels or no
cost entry exists for the pair. -/
def getAccumulatedCost (lookupN : NodeLookup)
    (scheduledList : List ScheduledInfo) (dependencyList : List DependenciesInfo)
    (nodeName region zone : String) (costMap : CostMap) : Except Unit Int :=
  scheduledList.foldlM (fun (cost : Int) podAllocated =>
    dependencyList.foldlM (fun (cost2 : Int) d =>
      if podAllocated.selector ≠ d.selector then pure cost2
      else if podAllocated.hostname = nodeName then pure (cost2 + SameHostname)
      else
        match lookupN podAllocated.hostname with
        | none => Except.error ()
        | some (regionP, zoneP) =>
          if regionP = "" ∧ zoneP = "" then pure (cost2 + MaxCost)
          else if region = regionP then
            if zone = zoneP then pure (cost2 + SameZone)
            else
              match lookupCost costMap { origin := zone, destination := zoneP } with
              | some v => pure (cost2 + v)
              | none => pure (cost2 + MaxCost)
          else
            match lookupCost costMap { origin := region, destination := regionP } with
            | some v => pure (cost2 + v)
            | none => pure (cost2 + MaxCost)) cost) (0 : Int)

/-- The AppGroup CR fields kept in the pre-filter state (identity only; the
dependency list derived from it is carried separately, as in the code). -/
structure AppGroup where
  name : String
  deriving DecidableEq, Repr

/-- `PreFilterState` (networkcost.go): computed at PreFilter, consumed by
Filter and Score. -/
structure PreFilterState where
  scoreEqually : Bool
  agName : String
  appGroup : Option AppGroup
  networkTopology : Option NetworkTopology
  dependencyList : List DependenciesInfo
  scheduledList : List ScheduledInfo
  nodeCostMap : List (String × CostMap)
  satisfiedMap : List (String × Int)
  violatedMap : List (String × Int)
  finalCostMap : List (String × Int)
  deriving DecidableEq, Repr

/-- `PreFilterState.Clone` (networkcost.go): `return no` — the receiver
itself, not a copy. -/
def PreFilterState.Clone (no : PreFilterState) : PreFilterState := no

/-- `satisfiedMap[name]` etc. : Go map read with zero default. -/
def lookupInt (m : List (String × Int)) (k : String) : Int :=
  match m.find? (fun p => p.1 == k) with
  | some p => p.2
  | none => 0

/-- The distinguishable outcomes of the cost-aware Filter. -/
inductive FilterStatus where
  | errNodeNotFound
  | errNoState
  | pass
  | unschedulable (nodeName : String) (satisfied violated : Int)
  deriving DecidableEq, Repr

/-- `NetworkCostAware.Filter` (networkcost.go): error when the node or the
pre-filter state is missing; pass unconditionally under `scoreEqually`;
otherwise unschedulable exactly when the violated count strictly exceeds the
satisfied count. -/
def Filter (node : Option String) (state : Option PreFilterState) : FilterStatus :=
  match node with
  | none => FilterStatus.errNodeNotFound
  | some nodeName =>
    match state with
    | none => FilterStatus.errNoState
    | some s =>
      if s.scoreEqually then FilterStatus.pass
      else
        let satisfied := lookupInt s.satisfiedMap nodeName
        let violated := lookupInt s.violatedMap nodeName
        if violated > satisfied then FilterStatus.unschedulable nodeName satisfied violated
        else FilterStatus.pass

/-- `getMinMaxScores` (networkcost.go): one pass over the scores starting
from the int64 sentinels (min from MaxInt64, max from MinInt64); returns
(min, max). -/
def getMinMaxScores (scores : List Int) : Int × Int :=
  scores.foldl (fun (mm : Int × Int) s =>
    (if s < mm.1 then s else mm.1, if s > mm.2 then s else mm.2))
    (9223372036854775807, -9223372036854775808)

/-- `NormalizeScore` (networkcost.go).  The float64 arithmetic of the source
is exact for the integer magnitudes involved and is modelled by exact integer
arithmetic; the int64 conversion truncates toward zero (`Int.tdiv`).
Unchanged when both min and max are 0; otherwise each score becomes
`MaxNodeScore - trunc(MaxNodeScore*(s-min)/(max-min))`, falling back to
`MaxNodeScore - (s-min)` when max = min. -/
def NormalizeScore (scores : List Int) : List Int :=
  let mm := getMinMaxScores scores
  let minCost := mm.1
  let maxCost := mm.2
  if minCost = 0 ∧ maxCost = 0 then scores
  else
    scores.map (fun s =>
      if maxCost ≠ minCost then
        MaxNodeScore - (MaxNodeScore * (s - minCost)).tdiv (maxCost - minCost)
      else MaxNodeScore - (s - minCost))

/-- One AppGroup pod as returned by the pod lister: its workload selector
and assigned hostname (empty when not yet bound). -/
structure Pod where
  selector : String
  hostname : String
  deriving DecidableEq, Repr

/-- Modelled from the spec: `GetScheduledList` of the networkaware util
package (not under src/) returns the subset of the AppGroup pods already
bound, annotated with hostname and selector. -/
def GetScheduledList (pods : List Pod) : List ScheduledInfo :=
  pods.filterMap (fun p =>
    if p.hostname ≠ "" then some { selector := p.selector, hostname := p.hostname }
    else none)

/-- A node of the snapshot with its region and zone labels. -/
structure NodeTopo where
  name : String
  region : String
  zone : String
  deriving DecidableEq, Repr

/-- The environment a call to the cost-aware PreFilter observes: the pod's
AppGroup label, the resolved CRs, the result of `GetDependencyList` (a util
call outside src/, taken as an input; `none` models a nil list), the pod
listing, the node snapshot and the per-hostname node lookup. -/
structure NCEnv where
  agName : String
  appGroup : Option AppGroup
  networkTopology : NetworkTopology
  weightsName : String
  dependencyList : Option (List DependenciesInfo)
  pods : Except Unit (List Pod)
  nodeList : Except Unit (List NodeTopo)
  lookupN : NodeLookup

/-- Which of the two fallible per-node computations failed. -/
inductive NCLoopErr where
  | requirements
  | accumulated
  deriving DecidableEq, Repr

/-- The distinguishable outcomes of the cost-aware PreFilter, one per return
statement of the source. -/
inductive NCStatus where
  | successNoAppGroup
  | successNoDependencies
  | successPodListError
  | successNoPods
  | successEmptyScheduledList
  | errNodeList
  | errRequirements
  | errAccumulatedCost
  | successComputed
  deriving DecidableEq, Repr

/-- The per-node loop of the cost-aware PreFilter: populate the node's cost
map, count satisfied/violated dependencies, accumulate the node's cost;
either fallible step aborts the whole evaluation. -/
def ncNodeLoop (env : NCEnv) (scheduledList : List ScheduledInfo)
    (deps : List DependenciesInfo) :
    List NodeTopo →
    List (String × CostMap) × List (String × Int) × List (String × Int) × List (String × Int) →
    Except NCLoopErr
      (List (String × CostMap) × List (String × Int) × List (String × Int) × List (String × Int))
  | [], maps => Except.ok maps
  | node :: rest, (ncm, sm, vm, fcm) =>
    let costMap := populateCostMap env.weightsName env.networkTopology node.region node.zone
    match checkMaxNetworkCostRequirements env.lookupN scheduledList deps
        node.name node.region node.zone costMap with
    | Except.error _ => Except.error NCLoopErr.requirements
    | Except.ok (satisfied, violated) =>
      match getAccumulatedCost env.lookupN scheduledList deps
          node.name node.region node.zone costMap with
      | Except.error _ => Except.error NCLoopErr.accumulated
      | Except.ok cost =>
        ncNodeLoop env scheduledList deps rest
          ((node.name, costMap) :: ncm, (node.name, satisfied) :: sm,
           (node.name, violated) :: vm, (node.name, cost) :: fcm)

/-- The state first written by the cost-aware PreFilter:
`{ scoreEqually: true }` with every other field zero-valued. -/
def initialState : PreFilterState :=
  { scoreEqually := true, agName := "", appGroup := none, networkTopology := none,
    dependencyList := [], scheduledList := [], nodeCostMap := [], satisfiedMap := [],
    violatedMap := [], finalCostMap := [] }

/-- `NetworkCostAware.PreFilter` (networkcost.go).  The first component is
the ordered sequence of writes to the cycle state under the plugin's key
(the last write is the value Filter and Score read); the second is the
returned status, one constructor per return statement. -/
def ncPreFilter (env : NCEnv) : List PreFilterState × NCStatus :=
  let writes := [initialState]
  if env.agName = "" then (writes, NCStatus.successNoAppGroup)
  else
    match env.dependencyList with
    | none => (writes, NCStatus.successNoDependencies)
    | some deps =>
      match env.pods with
      | Except.error _ => (writes, NCStatus.successPodListError)
      | Except.ok pods =>
        if pods.length = 0 then (writes, NCStatus.successNoPods)
        else
          let scheduledList := GetScheduledList pods
          if scheduledList.length = 0 then (writes, NCStatus.successEmptyScheduledList)
          else
            match env.nodeList with
            | Except.error _ => (writes, NCStatus.errNodeList)
            | Except.ok nodes =>
              match ncNodeLoop env scheduledList deps nodes ([], [], [], []) with
              | Except.error NCLoopErr.requirements => (writes, NCStatus.errRequirements)
              | Except.error NCLoopErr.accumulated => (writes, NCStatus.errAccumulatedCost)
              | Except.ok (ncm, sm, vm, fcm) =>
                (writes ++
                  [{ scoreEqually := false, agName := env.agName,
                     appGroup := env.appGroup, networkTopology := some env.networkTopology,
                     dependencyList := deps, scheduledList := scheduledList,
                     nodeCostMap := ncm, satisfiedMap := sm, violatedMap := vm,
                     finalCostMap := fcm }],
                 NCStatus.successComputed)

end NetworkCost

namespace Coscheduling

/-- A PodGroup with minMember 3 and no resource requirement. -/
def pgExample : PodGroup :=
  { name := "pg", pgNamespace := "ns", minMember := 3, minResources := none }

/-- A sibling pod of `pgExample` already bound to a node. -/
def boundPod : PodRef := { pgLabel := "pg", ns := "ns", nodeName := "n1" }

/-- A Permit environment for `pgExample` whose snapshot holds the given
pods on a single node. -/
def permitEnvMG (pods : List PodRef) : PermitInput :=
  { pgFullName := "ns/pg", pg := some pgExample, nodeInfos := Except.ok [pods] }

/-- A PreFilter environment whose group is currently backed off. -/
def backoffEnvExample : PreFilterInput :=
  { pgFullName := "ns/pg", pg := some pgExample, backedOffPG := [("ns/pg", 5)],
    siblingPods := Except.ok 3, permittedPG := [], nodeInfos := Except.ok [],
    scheduleTimeout := 10 }

/-- A PreFilter environment listing only 2 of the 3 required siblings. -/
def fewSiblingsEnv : PreFilterInput :=
  { pgFullName := "ns/pg", pg := some pgExample, backedOffPG := [],
    siblingPods := Except.ok 2, permittedPG := [], nodeInfos := Except.error "e",
    scheduleTimeout := 10 }

/-- A PreFilter environment listing all 3 required siblings. -/
def enoughSiblingsEnv : PreFilterInput :=
  { pgFullName := "ns/pg", pg := some pgExample, backedOffPG := [],
    siblingPods := Except.ok 3, permittedPG := [], nodeInfos := Except.error "e",
    scheduleTimeout := 10 }

/-- A PodGroup requiring 4 units of cpu with minMember 1. -/
def pgResExample : PodGroup :=
  { name := "pg", pgNamespace := "ns", minMember := 1, minResources := some [("cpu", 4)] }

/-- A PreFilter environment for `pgResExample` over two nodes with left cpu
capacities 2 and 3. -/
def resourceEnvExample : PreFilterInput :=
  { pgFullName := "ns/pg", pg := some pgResExample, backedOffPG := [],
    siblingPods := Except.ok 3, permittedPG := [],
    nodeInfos := Except.ok [some [("cpu", 2), ("pods", 5)], some [("cpu", 3)]],
    scheduleTimeout := 10 }

end Coscheduling

namespace NetworkCost

/-- A snapshot in which hostname nodeB lies in region rB, zone zB. -/
def c3lookup : NodeLookup := fun h => if h = "nodeB" then some ("rB", "zB") else none

/-- An allocated pod of workload s on nodeB. -/
def c3pod : ScheduledInfo := { selector := "s", hostname := "nodeB" }

/-- A dependency on workload s with maximum network cost 10. -/
def c3dep : DependenciesInfo := { selector := "s", maxNetworkCost := 10 }

/-- The cost entry A→B = 10. -/
def abEntry : CostEntry := { destination := "B", networkCost := 10 }

/-- The region-level origin list containing only origin A. -/
def aOrigin : OriginInfo := { origin := "A", costList := [abEntry] }

/-- The region level of the asymmetric topology. -/
def regionLevel : TopologyInfo :=
  { topologyKey := NetworkTopologyRegion, originList := [aOrigin] }

/-- A weighting scheme W whose only level is the region level. -/
def wWeight : WeightInfo := { name := "W", topologyList := [regionLevel] }

/-- The asymmetric topology: cost(A→B) = 10 and no (B→A) entry. -/
def ntAB : NetworkTopology := { weights := [wWeight] }

/-- A snapshot in which hostname nodeA lies in region A, zone zA. -/
def c6lookup : NodeLookup := fun h => if h = "nodeA" then some ("A", "zA") else none

/-- An allocated pod of workload s on nodeA. -/
def c6pod : ScheduledInfo := { selector := "s", hostname := "nodeA" }

/-- A dependency on workload s with maximum network cost 10. -/
def c6dep : DependenciesInfo := { selector := "s", maxNetworkCost := 10 }

/-- A fully computed pre-filter state in which node n1 has 1 satisfied and
2 violated dependencies. -/
def filterStateExample : PreFilterState :=
  { scoreEqually := false, agName := "ag", appGroup := none, networkTopology := none,
    dependencyList := [], scheduledList := [], nodeCostMap := [],
    satisfiedMap := [("n1", 1)], violatedMap := [("n1", 2)], finalCostMap := [] }

/-- A cost-aware PreFilter environment for a pod without an AppGroup label. -/
def ncEnvNoLabel : NCEnv :=
  { agName := "", appGroup := none, networkTopology := ntAB, weightsName := "W",
    dependencyList := none, pods := Except.error (), nodeList := Except.error (),
    lookupN := fun _ => none }

end NetworkCost

namespace Coscheduling

/-- C1: for a pod carrying a PodGroup label whose PodGroup exists with
minMember m, Permit returns Success iff assigned + 1 ≥ m, where assigned is
`CalculateAssignedPods` over the snapshot; otherwise it returns Wait, and
within the Wait branch it writes `PermitState{Activate: true}` iff
assigned = 0 (and never writes any other permit state).  For m = 3 the pods
reaching Permit with assigned = 0 and 1 get Wait, the pod with assigned = 2
gets Success, and only the assigned = 0 pod requests sibling activation. -/
theorem permit_quorum_spec (env : PermitInput) (pg : PodGroup)
    (hname : ¬ env.pgFullName = "") (hpg : env.pg = some pg) :
    (((Permit env).1 = PermitStatus.success ↔
        pg.minMember ≤ (CalculateAssignedPods env.nodeInfos pg.name pg.pgNamespace : Int) + 1) ∧
      ((Permit env).1 ≠ PermitStatus.success → (Permit env).1 = PermitStatus.wait) ∧
      ((Permit env).2 = some { activate := true } ↔
        ((Permit env).1 = PermitStatus.wait ∧
          CalculateAssignedPods env.nodeInfos pg.name pg.pgNamespace = 0)) ∧
      ((Permit env).2 = some { activate := true } ∨ (Permit env).2 = none)) ∧
    (Permit (permitEnvMG []) = (PermitStatus.wait, some { activate := true }) ∧
      Permit (permitEnvMG [boundPod]) = (PermitStatus.wait, none) ∧
      Permit (permitEnvMG [boundPod, boundPod]) = (PermitStatus.success, none)) := by
  constructor
  · simp only [Permit, hpg, if_neg hname, ge_iff_le]
    by_cases h1 :
        pg.minMember ≤ (CalculateAssignedPods env.nodeInfos pg.name pg.pgNamespace : Int) + 1
    · simp [h1]
    · by_cases h2 : CalculateAssignedPods env.nodeInfos pg.name pg.pgNamespace = 0
      · rw [h2] at h1 ⊢
        have h3 : ¬ pg.minMember ≤ 1 := by simpa using h1
        simp [h3]
      · simp [h1, h2]
  · exact ⟨by decide, by decide, by decide⟩

/-- Witness for C1: the quorum-completing pod (assigned = 2, minMember = 3)
gets Success. -/
theorem permit_quorum_spec_witness :
    (Permit (permitEnvMG [boundPod, boundPod])).1 = PermitStatus.success :=
  ((permit_quorum_spec (permitEnvMG [boundPod, boundPod]) pgExample
    (by decide) rfl).1.1).mpr (by decide)

/-- C2: `CheckClusterResource` succeeds on two nodes of left cpu 2 and 3
for a 4-cpu request and fails for a 6-cpu request reporting the exact 1-unit
gap; on the successful resource-check path PreFilter adds the group to the
permitted set with TTL equal to the configured schedule timeout. -/
theorem cluster_resource_feasibility :
    (CheckClusterResource [some [("cpu", 2)], some [("cpu", 3)]] [("cpu", 4)] =
      Except.ok ()) ∧
    (CheckClusterResource [some [("cpu", 2)], some [("cpu", 3)]] [("cpu", 6)] =
      Except.error [("cpu", 1)]) ∧
    (∀ env : PreFilterInput, ∀ pg minRes nodes, ∀ n : Nat,
      env.pg = some pg → pg.minResources = some minRes →
      isBackedOff env.backedOffPG env.pgFullName = false →
      env.siblingPods = Except.ok n → pg.minMember ≤ (n : Int) →
      env.pgFullName ∉ env.permittedPG →
      env.nodeInfos = Except.ok nodes →
      CheckClusterResource nodes (setPodsQuantity minRes pg.minMember) = Except.ok () →
      coschedulingPreFilter env =
        (CoPreFilterStatus.ok, some (env.pgFullName, env.scheduleTimeout))) := by
  refine ⟨by decide, by decide, ?_⟩
  intro env pg minRes nodes n hpg hmr hb hlist hge hperm hnodes hcheck
  simp [coschedulingPreFilter, hpg, hmr, hb, hlist, hperm, hnodes, hcheck, not_lt.mpr hge]

/-- Witness for C2: the PreFilter of `resourceEnvExample` succeeds and adds
the group with the configured 10-unit timeout. -/
theorem cluster_resource_feasibility_witness :
    coschedulingPreFilter resourceEnvExample =
      (CoPreFilterStatus.ok, some ("ns/pg", 10)) :=
  cluster_resource_feasibility.2.2 resourceEnvExample pgResExample [("cpu", 4)]
    [some [("cpu", 2), ("pods", 5)], some [("cpu", 3)]] 3
    rfl rfl (by decide) rfl (by decide) (by decide) rfl (by decide)

/-- C7: for a pod whose PodGroup exists with minMember m and whose group is
not backed off, PreFilter returns the error naming the current sibling
count and the required minimum exactly when the listing returns fewer than
m pods, and succeeds when it returns at least m pods and minResources is
unset. -/
theorem prefilter_minmember_gate (env : PreFilterInput) (pg : PodGroup) (n : Nat)
    (hpg : env.pg = some pg)
    (hb : isBackedOff env.backedOffPG env.pgFullName = false)
    (hlist : env.siblingPods = Except.ok n) :
    ((n : Int) < pg.minMember →
      coschedulingPreFilter env =
        (CoPreFilterStatus.errNotEnoughSiblings n pg.minMember, none)) ∧
    (pg.minMember ≤ (n : Int) → pg.minResources = none →
      coschedulingPreFilter env = (CoPreFilterStatus.ok, none)) := by
  constructor
  · intro hlt
    simp [coschedulingPreFilter, hpg, hb, hlist, hlt]
  · intro hge hmr
    simp [coschedulingPreFilter, hpg, hb, hlist, hmr, not_lt.mpr hge]

/-- Witness for C7: 2 of 3 siblings fails with the 2-vs-3 error; 3 of 3
with no resource requirement succeeds. -/
theorem prefilter_minmember_gate_witness :
    coschedulingPreFilter fewSiblingsEnv =
      (CoPreFilterStatus.errNotEnoughSiblings 2 3, none) ∧
    coschedulingPreFilter enoughSiblingsEnv = (CoPreFilterStatus.ok, none) :=
  ⟨(prefilter_minmember_gate fewSiblingsEnv pgExample 2 rfl rfl rfl).1 (by decide),
   (prefilter_minmember_gate enoughSiblingsEnv pgExample 3 rfl rfl rfl).2 (by decide) rfl⟩

/-- C8: `BackoffPodGroup` with duration 0 leaves the backed-off set
unchanged; with positive duration it inserts the group with that TTL; and
while the group's full name is in the backed-off set PreFilter fails with
the recently-failed error — for every sibling listing, permitted cache and
node snapshot, so before the listing and before any cluster resource
scan. -/
theorem backoff_podgroup_spec :
    (∀ cache name, BackoffPodGroup cache name 0 = cache) ∧
    (∀ cache name d, 0 < d → (name, d) ∈ BackoffPodGroup cache name d) ∧
    (∀ env : PreFilterInput, ∀ pg, env.pg = some pg →
      isBackedOff env.backedOffPG env.pgFullName = true →
      coschedulingPreFilter env =
        (CoPreFilterStatus.errBackedOff env.pgFullName, none)) := by
  refine ⟨fun cache name => by simp [BackoffPodGroup],
    fun cache name d hd => ?_, fun env pg hpg hb => ?_⟩
  · rw [BackoffPodGroup, if_neg (by omega)]
    exact List.mem_cons_self _ _
  · simp [coschedulingPreFilter, hpg, hb]

/-- Witness for C8: a pod of the backed-off group `ns/pg` is rejected with
the recently-failed error. -/
theorem backoff_podgroup_spec_witness :
    coschedulingPreFilter backoffEnvExample =
      (CoPreFilterStatus.errBackedOff "ns/pg", none) :=
  backoff_podgroup_spec.2.2 backoffEnvExample pgExample rfl (by decide)

end Coscheduling

namespace NetworkCost

/-- In the Except monad, `pure` is `Except.ok`. -/
theorem except_pure_eq {ε α : Type} (a : α) : (pure a : Except ε α) = Except.ok a := rfl

/-- In the Except monad, binding a successful value applies the
continuation. -/
theorem except_bind_ok {ε α β : Type} (a : α) (f : α → Except ε β) :
    (Except.ok a : Except ε α) >>= f = f a := rfl

/-- C10: `PreFilterState.Clone` returns the receiver itself rather than a
copy: for every state s, `s.Clone = s`, so any clone of the cycle state
aliases the same nodeCostMap, satisfiedMap, violatedMap and finalCostMap as
the original, and a mutation through one is visible through the other. -/
theorem prefilterstate_clone_identity (s : PreFilterState) : s.Clone = s := rfl

/-- C4: for a pod whose state was fully computed (scoreEqually = false),
Filter rejects a node iff that node's violated count strictly exceeds its
satisfied count — equal counts pass — and under scoreEqually it allows
every node unconditionally. -/
theorem filter_majority_rule (nodeName : String) (s : PreFilterState) :
    (s.scoreEqually = false →
      ((Filter (some nodeName) (some s) ≠ FilterStatus.pass) ↔
        lookupInt s.satisfiedMap nodeName < lookupInt s.violatedMap nodeName)) ∧
    (s.scoreEqually = false →
      lookupInt s.violatedMap nodeName = lookupInt s.satisfiedMap nodeName →
      Filter (some nodeName) (some s) = FilterStatus.pass) ∧
    (s.scoreEqually = true → Filter (some nodeName) (some s) = FilterStatus.pass) := by
  refine ⟨fun hse => ?_, fun hse heq => ?_, fun hse => ?_⟩
  · by_cases hv : lookupInt s.satisfiedMap nodeName < lookupInt s.violatedMap nodeName
    · simp [Filter, hse, hv]
    · simp [Filter, hse, hv]
  · simp [Filter, hse, heq]
  · simp [Filter, hse]

/-- Witness for C4: node n1 with 1 satisfied, 2 violated dependencies is
rejected. -/
theorem filter_majority_rule_witness :
    Filter (some "n1") (some filterStateExample) ≠ FilterStatus.pass :=
  ((filter_majority_rule "n1" filterStateExample).1 rfl).mpr (by decide)

/-- C5: NormalizeScore leaves all scores unchanged when both the minimum
and maximum raw score are 0; otherwise, when max ≠ min each score s becomes
MaxNodeScore - trunc(MaxNodeScore*(s - min)/(max - min)) — so raw costs
[0, 50, 100] become [100, 50, 0] — and when max = min it falls back to the
direct inversion MaxNodeScore - (s - min), so all-equal raw costs yield
all-equal final scores. -/
theorem normalize_score_spec :
    (∀ scores, getMinMaxScores scores = (0, 0) → NormalizeScore scores = scores) ∧
    (NormalizeScore [0, 50, 100] = [100, 50, 0]) ∧
    (∀ c : Int, ∃ v, NormalizeScore [c, c, c] = [v, v, v]) ∧
    (∀ scores minC maxC, getMinMaxScores scores = (minC, maxC) →
      ¬(minC = 0 ∧ maxC = 0) → ¬ maxC = minC →
      NormalizeScore scores =
        scores.map (fun s =>
          MaxNodeScore - (MaxNodeScore * (s - minC)).tdiv (maxC - minC))) ∧
    (∀ scores minC maxC, getMinMaxScores scores = (minC, maxC) →
      ¬(minC = 0 ∧ maxC = 0) → maxC = minC →
      NormalizeScore scores = scores.map (fun s => MaxNodeScore - (s - minC))) := by
  refine ⟨fun scores h => ?_, by decide, fun c => ?_, fun scores minC maxC h h0 hne => ?_,
    fun scores minC maxC h h0 heq => ?_⟩
  · simp [NormalizeScore, h]
  · simp only [NormalizeScore]
    split
    · exact ⟨c, rfl⟩
    · simp only [List.map]
      exact ⟨_, rfl⟩
  · simp [NormalizeScore, h, h0, hne]
  · subst heq
    have h0m : ¬ maxC = 0 := fun hh => h0 ⟨hh, hh⟩
    simp [NormalizeScore, h, h0m]

/-- Witness for C5: a score list whose min and max are both 0 is left
unchanged. -/
theorem normalize_score_spec_witness : NormalizeScore [0, 0] = [0, 0] :=
  normalize_score_spec.1 [0, 0] (by decide)

/-- C3 counterexample: node nodeA sits in region rA; the dependency's pod
sits on nodeB in region rB; the cost map holds no (rA, rB) entry.  The
claim predicts the dependency is counted violated (count (0, 1)); the code
counts it neither satisfied nor violated, yielding (0, 0). -/
theorem checkmax_missing_entry_skipped_cex :
    checkMaxNetworkCostRequirements c3lookup [c3pod] [c3dep] "nodeA" "rA" "zA" [] =
      Except.ok (0, 0) ∧
    ¬ checkMaxNetworkCostRequirements c3lookup [c3pod] [c3dep] "nodeA" "rA" "zA" [] =
      Except.ok (0, 1) := by
  exact ⟨by decide, by decide⟩

/-- C3 amended: in the different-zone and different-region cases the
dependency is counted satisfied iff a cost entry exists for the looked-up
(origin, destination) pair with cost ≤ the declared maximum, counted
violated iff an entry exists whose cost exceeds the maximum, and counted
neither satisfied nor violated when no cost entry exists for the pair. -/
theorem checkmax_cost_requirements_amended
    (lookupN : NodeLookup) (p : ScheduledInfo) (d : DependenciesInfo)
    (nodeName region zone regionP zoneP : String) (costMap : CostMap)
    (hhost : p.hostname ≠ "") (hsel : p.selector = d.selector)
    (hnode : ¬ p.hostname = nodeName)
    (hlook : lookupN p.hostname = some (regionP, zoneP))
    (hnz : ¬(regionP = "" ∧ zoneP = "")) :
    (region = regionP → ¬ zone = zoneP →
      (((checkMaxNetworkCostRequirements lookupN [p] [d] nodeName region zone costMap =
            Except.ok (1, 0)) ↔
          (∃ c, lookupCost costMap { origin := zone, destination := zoneP } = some c ∧
            c ≤ d.maxNetworkCost)) ∧
        ((checkMaxNetworkCostRequirements lookupN [p] [d] nodeName region zone costMap =
            Except.ok (0, 1)) ↔
          (∃ c, lookupCost costMap { origin := zone, destination := zoneP } = some c ∧
            ¬ c ≤ d.maxNetworkCost)) ∧
        (lookupCost costMap { origin := zone, destination := zoneP } = none →
          checkMaxNetworkCostRequirements lookupN [p] [d] nodeName region zone costMap =
            Except.ok (0, 0)))) ∧
    (¬ region = regionP →
      (((checkMaxNetworkCostRequirements lookupN [p] [d] nodeName region zone costMap =
            Except.ok (1, 0)) ↔
          (∃ c, lookupCost costMap { origin := region, destination := regionP } = some c ∧
            c ≤ d.maxNetworkCost)) ∧
        ((checkMaxNetworkCostRequirements lookupN [p] [d] nodeName region zone costMap =
            Except.ok (0, 1)) ↔
          (∃ c, lookupCost costMap { origin := region, destination := regionP } = some c ∧
            ¬ c ≤ d.maxNetworkCost)) ∧
        (lookupCost costMap { origin := region, destination := regionP } = none →
          checkMaxNetworkCostRequirements lookupN [p] [d] nodeName region zone costMap =
            Except.ok (0, 0)))) := by
  constructor
  · intro hr hz
    simp only [checkMaxNetworkCostRequirements, List.foldlM, hhost, hsel, hlook,
      if_neg hnode, if_neg hnz, if_pos hr, if_neg hz, ne_eq, not_true_eq_false,
      if_false, ite_not]
    refine ⟨?_, ?_, fun hc => ?_⟩
    · rcases hc : lookupCost costMap { origin := zone, destination := zoneP } with _ | c
      · simp [hc, except_pure_eq, except_bind_ok] <;> try decide
      · by_cases hle : c ≤ d.maxNetworkCost <;>
          simp [hc, hle, except_pure_eq, except_bind_ok] <;> try omega
    · rcases hc : lookupCost costMap { origin := zone, destination := zoneP } with _ | c
      · simp [hc, except_pure_eq, except_bind_ok] <;> try decide
      · by_cases hle : c ≤ d.maxNetworkCost <;>
          simp [hc, hle, except_pure_eq, except_bind_ok] <;> try omega
    · simp [hc, except_pure_eq, except_bind_ok]
  · intro hr
    simp only [checkMaxNetworkCostRequirements, List.foldlM, hhost, hsel, hlook,
      if_neg hnode, if_neg hnz, if_neg hr, ne_eq, not_true_eq_false, if_false, ite_not]
    refine ⟨?_, ?_, fun hc => ?_⟩
    · rcases hc : lookupCost costMap { origin := region, destination := regionP } with _ | c
      · simp [hc, except_pure_eq, except_bind_ok] <;> try decide
      · by_cases hle : c ≤ d.maxNetworkCost <;>
          simp [hc, hle, except_pure_eq, except_bind_ok] <;> try omega
    · rcases hc : lookupCost costMap { origin := region, destination := regionP } with _ | c
      · simp [hc, except_pure_eq, except_bind_ok] <;> try decide
      · by_cases hle : c ≤ d.maxNetworkCost <;>
          simp [hc, hle, except_pure_eq, except_bind_ok] <;> try omega
    · simp [hc, except_pure_eq, except_bind_ok]

/-- Witness for C3 (amended): with the (rA, rB) entry of cost 5 ≤ 10
present, the dependency is counted satisfied. -/
theorem checkmax_cost_requirements_amended_witness :
    checkMaxNetworkCostRequirements c3lookup [c3pod] [c3dep] "nodeA" "rA" "zA"
      [({ origin := "rA", destination := "rB" }, 5)] = Except.ok (1, 0) :=
  ((checkmax_cost_requirements_amended c3lookup c3pod c3dep "nodeA" "rA" "zA" "rB" "zB"
      [({ origin := "rA", destination := "rB" }, 5)]
      (by decide) rfl (by decide) (by decide) (by decide)).2 (by decide)).1.mpr
    ⟨5, by decide, by decide⟩

/-- A fold that only conses entries onto the map preserves any property of
all the entries that holds of the consed entries and of the start map. -/
theorem foldl_preserves {α β : Type} (P : α → Prop) (f : α → β → α) (l : List β)
    (init : α) (hinit : P init) (hstep : ∀ a b, P a → P (f a b)) :
    P (l.foldl f init) := by
  induction l generalizing init with
  | nil => exact hinit
  | cons x t ih => exact ih (f init x) (hstep init x hinit)

/-- Every entry of `addOriginCosts origin costs costMap` either carries the
given origin or was already in the map. -/
theorem mem_addOriginCosts {origin : String} {costs : List CostEntry} {costMap : CostMap}
    {p : CostKey × Int} (hp : p ∈ addOriginCosts origin costs costMap) :
    p.1.origin = origin ∨ p ∈ costMap := by
  induction costs generalizing costMap with
  | nil => exact Or.inr hp
  | cons c t ih =>
    have hp2 : p ∈ addOriginCosts origin t
        (({ origin := origin, destination := c.destination }, c.networkCost) :: costMap) := hp
    rcases ih hp2 with h | h
    · exact Or.inl h
    · rcases List.mem_cons.mp h with h1 | h2
      · exact Or.inl (by rw [h1])
      · exact Or.inr h2

/-- Every entry of `addLevelCosts` either carries the given origin or was
already in the map. -/
theorem mem_addLevelCosts {level origin : String} {w : WeightInfo} {costMap : CostMap}
    {p : CostKey × Int} (hp : p ∈ addLevelCosts level origin w costMap) :
    p.1.origin = origin ∨ p ∈ costMap := by
  unfold addLevelCosts at hp
  split at hp
  · exact mem_addOriginCosts hp
  · exact Or.inr hp

/-- Every entry of `populateWeight` carries the node's region or zone as
origin, or was already in the map. -/
theorem mem_populateWeight {weightsName region zone : String} {costMap : CostMap}
    {w : WeightInfo} {p : CostKey × Int}
    (hp : p ∈ populateWeight weightsName region zone costMap w) :
    p.1.origin = region ∨ p.1.origin = zone ∨ p ∈ costMap := by
  unfold populateWeight at hp
  split at hp
  · exact Or.inr (Or.inr hp)
  · rcases mem_addLevelCosts hp with h | h
    · exact Or.inr (Or.inl h)
    · rcases mem_addLevelCosts h with h2 | h2
      · exact Or.inl h2
      · exact Or.inr (Or.inr h2)

/-- Every key of a populated node cost map has the node's own region or
zone as origin. -/
theorem populate_costmap_origin (weightsName : String) (nt : NetworkTopology)
    (region zone : String) :
    ∀ p ∈ populateCostMap weightsName nt region zone,
      p.1.origin = region ∨ p.1.origin = zone := by
  unfold populateCostMap
  refine foldl_preserves
    (fun m : CostMap => ∀ p ∈ m, p.1.origin = region ∨ p.1.origin = zone) _ _ _ ?_ ?_
  · intro p hp
    simp at hp
  · intro m w hm p hp
    rcases mem_populateWeight hp with h | h | h
    · exact Or.inl h
    · exact Or.inr h
    · exact hm p h

/-- C6: the cost map built for a node contains only entries keyed with that
node's own region or zone as origin, and every lookup consults exactly the
(origin, destination) pair requested: for the topology holding
cost(A→B) = 10 and no (B→A) entry, the A-region node's map holds the
(A, B) entry 10, the B-region node's map is empty — in particular it has no
(B, A) entry — and the accumulated-cost computation on the B-region node
adds the MaxCost sentinel 100, not 10. -/
theorem cost_map_asymmetry_spec :
    (∀ weightsName nt region zone, ∀ p ∈ populateCostMap weightsName nt region zone,
      p.1.origin = region ∨ p.1.origin = zone) ∧
    populateCostMap "W" ntAB "B" "zB" = [] ∧
    lookupCost (populateCostMap "W" ntAB "A" "zA") { origin := "A", destination := "B" } =
      some 10 ∧
    lookupCost (populateCostMap "W" ntAB "B" "zB") { origin := "B", destination := "A" } =
      none ∧
    getAccumulatedCost c6lookup [c6pod] [c6dep] "nodeB" "B" "zB"
      (populateCostMap "W" ntAB "B" "zB") = Except.ok MaxCost ∧
    ¬ getAccumulatedCost c6lookup [c6pod] [c6dep] "nodeB" "B" "zB"
      (populateCostMap "W" ntAB "B" "zB") = Except.ok 10 :=
  ⟨fun a b c d => populate_costmap_origin a b c d, by decide, by decide, by decide,
   by decide, by decide⟩

/-- Witness for C6: the single entry of the A-node cost map has origin A. -/
theorem cost_map_asymmetry_spec_witness :
    (({ origin := "A", destination := "B" } : CostKey), (10 : Int)).1.origin = "A" ∨
    (({ origin := "A", destination := "B" } : CostKey), (10 : Int)).1.origin = "zA" :=
  cost_map_asymmetry_spec.1 "W" ntAB "A" "zA"
    ({ origin := "A", destination := "B" }, 10) (by decide)

/-- C9: the cost-aware PreFilter writes the scoreEqually = true state
before anything else, so on every return path the cycle state holds a
PreFilterState under the plugin's key, and on every path other than the
full-computation one the last state written is still the initial one with
scoreEqually = true. -/
theorem ncprefilter_state_always_written (env : NCEnv) :
    ((ncPreFilter env).1 ≠ [] ∧ (ncPreFilter env).1.head? = some initialState ∧
      initialState.scoreEqually = true) ∧
    ((ncPreFilter env).2 ≠ NCStatus.successComputed →
      (ncPreFilter env).1.getLast? = some initialState) := by
  simp only [ncPreFilter]
  repeat' split
  all_goals simp [initialState]

/-- Witness for C9: a pod without an AppGroup label leaves the initial
scoreEqually state as the last write. -/
theorem ncprefilter_state_always_written_witness :
    (ncPreFilter ncEnvNoLabel).1.getLast? = some initialState :=
  (ncprefilter_state_always_written ncEnvNoLabel).2 (by decide)

end NetworkCost

end SchedulerPlugins
